import Mathlib

/-!
Verification of the song-catalog service (`src/main.rs`).

The service stores songs in a SQLite table

  CREATE TABLE songs (
    id INTEGER PRIMARY KEY AUTOINCREMENT,
    title_lowercase, genre_lowercase, artist_lowercase,
    title, genre, artist, play_count INTEGER DEFAULT 0 )

and exposes three handlers: `add_new_song` (INSERT with lowercased shadow
columns), `search_song` (SELECT with dynamically appended
`LIKE '%filter%'` conditions on the lowercase columns) and `play_song`
(UPDATE play_count, then SELECT the row back).

The table is embedded as a list of rows plus the AUTOINCREMENT sequence
counter; integers are mathematical integers, with the two `as i32` casts of
the source modelled explicitly (`asI32`).  Fallible sqlx calls are modelled
by a boolean argument saying whether the call reports an error; `.unwrap()`
on an error is the `Outcome.panicked` result.
-/

/-- One row of the `songs` table, column for column. -/
structure Row where
  id : Int
  title_lowercase : String
  genre_lowercase : String
  artist_lowercase : String
  title : String
  genre : String
  artist : String
  play_count : Int
deriving DecidableEq

/-- The `songs` table: its rows plus the SQLite AUTOINCREMENT sequence
(the largest rowid ever assigned; `0` for a fresh table). -/
structure Db where
  rows : List Row
  seq : Int
deriving DecidableEq

/-- The `Song` response struct of the source. -/
structure Song where
  id : Int
  title : String
  artist : String
  genre : String
  play_count : Int
deriving DecidableEq

/-- The `NewSong` request body of the source. -/
structure NewSong where
  title : String
  artist : String
  genre : String
deriving DecidableEq

/-- The `QueryParams` of the source: three optional filters. -/
structure QueryParams where
  title : Option String
  artist : Option String
  genre : Option String
deriving DecidableEq

/-- Result of a handler: a response, or a panic caused by `.unwrap()` on a
failed database call. -/
inductive Outcome (α : Type) where
  | resp (a : α)
  | panicked
deriving DecidableEq

/-- Response of the play handler: the updated song as JSON, or the
structured payload `{"error": msg}`. -/
inductive PlayOut where
  | song (s : Song)
  | errorPayload (msg : String)
deriving DecidableEq

/-- Rust's `as i32` on an unsigned or 64-bit value: keep the low 32 bits,
reinterpreted as a signed 32-bit integer. -/
def asI32 (n : Int) : Int :=
  if n % 4294967296 < 2147483648 then n % 4294967296
  else n % 4294967296 - 4294967296

/-- Models Rust `char` lowercasing as used by `str::to_lowercase` on the
ASCII range (the only range exercised here): `A`..`Z` map 32 codepoints up,
everything else is unchanged. -/
def lowerChar (c : Char) : Char :=
  if 65 ≤ c.toNat ∧ c.toNat ≤ 90 then Char.ofNat (c.toNat + 32) else c

/-- Models Rust `String::to_lowercase` (ASCII range). -/
def lowerStr (s : String) : String :=
  ⟨s.data.map lowerChar⟩

/-- SQLite's default `LIKE` compares characters ASCII-case-insensitively. -/
def likeCharEq (p c : Char) : Bool :=
  lowerChar p == lowerChar c

/-- A `LIKE` pattern matches the empty string iff it is all `%`. -/
def allPercent : List Char → Bool
  | [] => true
  | c :: p => c = '%' && allPercent p

/-- One step of the `LIKE` matcher: match a pattern against `c :: t`, given
the matcher `recT` for the tail `t`. -/
def likeStep (recT : List Char → Bool) (c : Char) : List Char → Bool
  | [] => false
  | p0 :: ps =>
    if p0 = '%' then likeStep recT c ps || recT (p0 :: ps)
    else if p0 = '_' then recT ps
    else likeCharEq p0 c && recT ps

/-- The `LIKE` matcher, by recursion on the subject string. -/
def likeRun : List Char → List Char → Bool
  | [], p => allPercent p
  | c :: t, p => likeStep (likeRun t) c p

/-- SQLite `LIKE`: `likeMatch pattern subject` holds iff `subject` matches
`pattern`, where `%` matches any sequence, `_` matches any single
character, and plain characters compare ASCII-case-insensitively. -/
def likeMatch (p s : List Char) : Bool :=
  likeRun s p

/-- The pattern `format!("%{}%", f.to_lowercase())` built by the search
handler for a supplied filter `f`. -/
def likePattern (f : String) : List Char :=
  '%' :: ((lowerStr f).data ++ ['%'])

/-- One dynamically appended condition of the search query:
`field_lowercase LIKE '%filter.to_lowercase()%'`, or true when the filter
was omitted. -/
def condLike (filter : Option String) (fieldLower : String) : Bool :=
  match filter with
  | none => true
  | some f => likeMatch (likePattern f) fieldLower.data

/-- `sqlx::FromRow` for `Song`: columns are picked by name. -/
def rowToSong (r : Row) : Song :=
  { id := r.id, title := r.title, artist := r.artist, genre := r.genre,
    play_count := r.play_count }

/-- Handler `add_new_song`: INSERT the payload with lowercased shadow
columns and `play_count = 0`; AUTOINCREMENT assigns `seq + 1`; the handler
echoes `last_insert_rowid() as i32` with the payload fields.  A failing
INSERT is `.unwrap()`ed: the handler panics and the table is unchanged. -/
def add_new_song (insertFails : Bool) (payload : NewSong) (db : Db) :
    Outcome Song × Db :=
  if insertFails then (.panicked, db)
  else
    let rowid := db.seq + 1
    let row : Row :=
      { id := rowid
        title_lowercase := lowerStr payload.title
        artist_lowercase := lowerStr payload.artist
        genre_lowercase := lowerStr payload.genre
        title := payload.title
        artist := payload.artist
        genre := payload.genre
        play_count := 0 }
    let song_id := asI32 rowid
    (.resp { id := song_id, title := payload.title, artist := payload.artist,
             genre := payload.genre, play_count := 0 },
     { rows := db.rows ++ [row], seq := rowid })

/-- Handler `search_song`: SELECT * FROM songs WHERE 1=1 with one
`LIKE '%f%'` condition per supplied filter, matched against the lowercase
columns.  A failing fetch is handled by `unwrap_or_else`: empty list. -/
def search_song (fetchFails : Bool) (params : QueryParams) (db : Db) :
    List Song :=
  if fetchFails then []
  else
    (db.rows.filter (fun r =>
      condLike params.title r.title_lowercase &&
      condLike params.artist r.artist_lowercase &&
      condLike params.genre r.genre_lowercase)).map rowToSong

/-- Effect of `UPDATE songs SET play_count = play_count + 1 WHERE id = ?`
on one row. -/
def bumpRow (bound : Int) (r : Row) : Row :=
  if r.id = bound then { r with play_count := r.play_count + 1 } else r

/-- Handler `play_song`: UPDATE the play count of the row whose id equals
the path id truncated by `as i32`; if no row was affected, answer the
structured payload `error: Song not found`; otherwise SELECT the row back
and rebuild a `Song` from the tuple `(id, title, artist, genre,
play_count)` — the source assigns `genre := song.2` and `artist := song.3`,
so the response swaps artist and genre.  A failing UPDATE or a failing
fetch is `.unwrap()`ed: the handler panics. -/
def play_song (updateFails fetchFails : Bool) (id : Nat) (db : Db) :
    Outcome PlayOut × Db :=
  if updateFails then (.panicked, db)
  else
    let bound := asI32 (id : Int)
    let rows' := db.rows.map (bumpRow bound)
    let db' : Db := { rows := rows', seq := db.seq }
    let rows_affected := (db.rows.filter (fun r => r.id = bound)).length
    let out : Outcome PlayOut :=
      if rows_affected = 0 then .resp (.errorPayload "Song not found")
      else if fetchFails then .panicked
      else
        match rows'.find? (fun r => r.id = bound) with
        | none => .panicked
        | some r =>
          .resp (.song { id := r.id, title := r.title, genre := r.artist,
                         artist := r.genre, play_count := r.play_count })
    (out, db')

/-- A freshly created database: empty table, AUTOINCREMENT sequence 0. -/
def db0 : Db := { rows := [], seq := 0 }

/-- Character-wise comparison of two strings of equal length under the
`LIKE` character comparison; this is what a wildcard-free pattern demands. -/
def matchEq : List Char → List Char → Bool
  | [], u => u.isEmpty
  | _ :: _, [] => false
  | p0 :: ps, c :: t => likeCharEq p0 c && matchEq ps t

/-- Spec-side predicate (from the spec's words): `p` occurs as a
contiguous segment — a substring — of `s`. -/
def Seg (p s : List Char) : Prop := ∃ a b, a ++ (p ++ b) = s

/-- Spec-side predicate (from the spec's words): the filter is a
case-insensitive substring of the field. -/
def ciSubstr (f fld : String) : Prop :=
  Seg (lowerStr f).data (lowerStr fld).data

/-- Executable test that `p` begins `s`. -/
def isPreB : List Char → List Char → Bool
  | [], _ => true
  | _ :: _, [] => false
  | a :: l, b :: m => a == b && isPreB l m

/-- Executable test that `p` occurs contiguously in `s`. -/
def isSegB (p : List Char) : List Char → Bool
  | [] => isPreB p []
  | c :: t => isPreB p (c :: t) || isSegB p t

/-- Shadow-column consistency of one row: the lowercase columns hold the
lowercasing of the visible columns. -/
def RowWF (r : Row) : Prop :=
  r.title_lowercase = lowerStr r.title ∧
  r.artist_lowercase = lowerStr r.artist ∧
  r.genre_lowercase = lowerStr r.genre

/-- Table invariant: shadow columns are consistent, every id is positive
and bounded by the AUTOINCREMENT sequence, ids are pairwise distinct, and
the sequence is non-negative. -/
def DbWF (db : Db) : Prop :=
  (∀ r ∈ db.rows, RowWF r) ∧
  (∀ r ∈ db.rows, 1 ≤ r.id ∧ r.id ≤ db.seq) ∧
  (db.rows.map Row.id).Nodup ∧
  0 ≤ db.seq

instance (r : Row) : Decidable (RowWF r) :=
  inferInstanceAs (Decidable (r.title_lowercase = lowerStr r.title ∧
    r.artist_lowercase = lowerStr r.artist ∧
    r.genre_lowercase = lowerStr r.genre))

instance (db : Db) : Decidable (DbWF db) :=
  inferInstanceAs (Decidable ((∀ r ∈ db.rows, RowWF r) ∧
    (∀ r ∈ db.rows, 1 ≤ r.id ∧ r.id ≤ db.seq) ∧
    (db.rows.map Row.id).Nodup ∧ 0 ≤ db.seq))

/-- A client-visible operation of the service. -/
inductive Op where
  | create (p : NewSong)
  | play (id : Nat)
  | search (q : QueryParams)

/-- Effect of one operation on the table, with all database calls
succeeding.  Search is read-only. -/
def applyOp (db : Db) : Op → Db
  | .create p => (add_new_song false p db).2
  | .play id => (play_song false false id db).2
  | .search _ => db

/-- The table after a sequence of operations. -/
def runOps (db : Db) (ops : List Op) : Db :=
  ops.foldl applyOp db

/-- The songs returned, in order, by a sequence of create requests. -/
def createRun : Db → List NewSong → List Song
  | _, [] => []
  | db, p :: ps =>
    match add_new_song false p db with
    | (.resp s, db') => s :: createRun db' ps
    | (.panicked, db') => createRun db' ps

/-- The row inserted by the create handler. -/
def insRow (p : NewSong) (db : Db) : Row :=
  { id := db.seq + 1
    title_lowercase := lowerStr p.title
    artist_lowercase := lowerStr p.artist
    genre_lowercase := lowerStr p.genre
    title := p.title
    artist := p.artist
    genre := p.genre
    play_count := 0 }

/-- Concrete request body: title `t`, artist `a`, genre `g`. -/
def exPayload : NewSong := { title := "t", artist := "a", genre := "g" }

/-- Concrete request body: title `abc`, artist `x`, genre `y`. -/
def exPayload2 : NewSong := { title := "abc", artist := "x", genre := "y" }

/-- A store holding the single record created from `exPayload`. -/
def exDb : Db := (add_new_song false exPayload db0).2

/-- A store holding the single record created from `exPayload2`. -/
def exDb2 : Db := (add_new_song false exPayload2 db0).2

/-- Modelled from the spec: the write-back-cache system state of the most
advanced revision (in-memory store, Dirty Tracker, Flush Scheduler,
Persistence Backend), which is absent from `src/`.  `pending` is the
snapshot being written while the scheduler is in its Flushing phase;
`durable` is the last successfully persisted snapshot. -/
structure SysState where
  db : Db
  dirty : Bool
  pending : Option Db
  durable : Option Db

/-- Modelled from the spec: one transition of the write-back-cache system.
Mutations (create, successful play) set the Dirty flag; the scheduler
starts a flush only from Dirty with the size threshold reached, clearing
the flag and taking a point-in-time snapshot; a finished flush either
persists the snapshot or, on failure, re-raises the Dirty flag. -/
inductive SysStep (threshold : Nat) : SysState → SysState → Prop where
  | create (p : NewSong) (db : Db) (d : Bool) (pend dur : Option Db) :
      SysStep threshold ⟨db, d, pend, dur⟩
        ⟨(add_new_song false p db).2, true, pend, dur⟩
  | play (id : Nat) (db : Db) (d : Bool) (pend dur : Option Db) :
      SysStep threshold ⟨db, d, pend, dur⟩
        ⟨(play_song false false id db).2,
         d || !(db.rows.filter (fun r => r.id = asI32 (id : Int))).isEmpty,
         pend, dur⟩
  | search (q : QueryParams) (db : Db) (d : Bool) (pend dur : Option Db) :
      SysStep threshold ⟨db, d, pend, dur⟩ ⟨db, d, pend, dur⟩
  | beginFlush (db : Db) (dur : Option Db)
      (hsz : threshold ≤ db.rows.length) :
      SysStep threshold ⟨db, true, none, dur⟩ ⟨db, false, some db, dur⟩
  | endFlushOk (db : Db) (d : Bool) (snap : Db) (dur : Option Db) :
      SysStep threshold ⟨db, d, some snap, dur⟩ ⟨db, d, none, some snap⟩
  | endFlushFail (db : Db) (d : Bool) (snap : Db) (dur : Option Db) :
      SysStep threshold ⟨db, d, some snap, dur⟩ ⟨db, true, none, dur⟩

/-- Modelled from the spec: the Catalog — the full set of Records plus the
id-assignment counter. -/
structure Catalog where
  records : List Song
  next_id : Int
deriving DecidableEq

/-- Modelled from the spec: `persist` — the persisted layout is
backend-specific but logically a sequence of Record rows plus the
`next_id` counter; this is that logical layout. -/
def persistSnap (c : Catalog) :
    List (Int × String × String × String × Int) × Int :=
  (c.records.map (fun s => (s.id, s.title, s.artist, s.genre, s.play_count)),
   c.next_id)

/-- Modelled from the spec: `load` — reconstruct a Catalog from durable
storage, or return the empty default Catalog (`next_id = 1`) when no
durable state exists. -/
def loadSnap :
    Option (List (Int × String × String × String × Int) × Int) → Catalog
  | none => { records := [], next_id := 1 }
  | some (rows, n) =>
    { records := rows.map (fun q =>
        { id := q.1, title := q.2.1, artist := q.2.2.1, genre := q.2.2.2.1,
          play_count := q.2.2.2.2 }),
      next_id := n }

/-! ### Character-level facts about ASCII lowercasing -/

theorem char_toNat_ofNat_lt {n : Nat} (h : n < 55296) :
    (Char.ofNat n).toNat = n := by
  have hv : n.isValidChar := Or.inl h
  rw [Char.ofNat, dif_pos hv]
  rfl

theorem lowerChar_toNat (c : Char) :
    (lowerChar c).toNat =
      if 65 ≤ c.toNat ∧ c.toNat ≤ 90 then c.toNat + 32 else c.toNat := by
  unfold lowerChar
  split
  · next h => exact char_toNat_ofNat_lt (by omega)
  · rfl

theorem lowerChar_idem (c : Char) : lowerChar (lowerChar c) = lowerChar c := by
  by_cases h : 65 ≤ c.toNat ∧ c.toNat ≤ 90
  · have h1 : lowerChar c = Char.ofNat (c.toNat + 32) := by
      unfold lowerChar
      rw [if_pos h]
    have ht : (Char.ofNat (c.toNat + 32)).toNat = c.toNat + 32 :=
      char_toNat_ofNat_lt (by omega)
    rw [h1]
    unfold lowerChar
    rw [if_neg (by rw [ht]; omega)]
  · have h1 : lowerChar c = c := by
      unfold lowerChar
      rw [if_neg h]
    rw [h1]
    exact h1

theorem lowerChar_pct {c : Char} : lowerChar c = '%' ↔ c = '%' := by
  constructor
  · intro h
    by_cases hu : 65 ≤ c.toNat ∧ c.toNat ≤ 90
    · exfalso
      have h2 := congrArg Char.toNat h
      rw [lowerChar_toNat, if_pos hu] at h2
      have h3 : Char.toNat '%' = 37 := by decide
      omega
    · unfold lowerChar at h
      rwa [if_neg hu] at h
  · intro h
    subst h
    decide

theorem lowerChar_us {c : Char} : lowerChar c = '_' ↔ c = '_' := by
  constructor
  · intro h
    by_cases hu : 65 ≤ c.toNat ∧ c.toNat ≤ 90
    · exfalso
      have h2 := congrArg Char.toNat h
      rw [lowerChar_toNat, if_pos hu] at h2
      have h3 : Char.toNat '_' = 95 := by decide
      omega
    · unfold lowerChar at h
      rwa [if_neg hu] at h
  · intro h
    subst h
    decide

theorem map_fix {α : Type} (f : α → α) :
    ∀ l : List α, (∀ a ∈ l, f a = a) → l.map f = l
  | [], _ => rfl
  | a :: t, h => by
    simp only [List.map_cons, List.cons.injEq]
    exact ⟨h a (by simp), map_fix f t (fun b hb => h b (by simp [hb]))⟩

theorem lower_fix_of_mem_map {l : List Char} {c : Char}
    (hc : c ∈ l.map lowerChar) : lowerChar c = c := by
  obtain ⟨c0, _, rfl⟩ := List.mem_map.mp hc
  exact lowerChar_idem c0

theorem fix_of_map_eq {l : List Char} (h : l.map lowerChar = l) :
    ∀ c ∈ l, lowerChar c = c := by
  intro c hc
  rw [← h] at hc
  exact lower_fix_of_mem_map hc

theorem lowerStr_data (s : String) :
    (lowerStr s).data = s.data.map lowerChar := rfl

theorem lowerStr_fix (s : String) :
    (lowerStr s).data.map lowerChar = (lowerStr s).data :=
  map_fix lowerChar _ (fun _ hc => lower_fix_of_mem_map hc)

/-! ### The LIKE matcher: unfolding equations and semantics -/

theorem likeMatch_nil_s (p : List Char) : likeMatch p [] = allPercent p := rfl

theorem likeMatch_nil_p (c : Char) (t : List Char) :
    likeMatch [] (c :: t) = false := rfl

theorem likeMatch_cons (p0 : Char) (ps : List Char) (c : Char) (t : List Char) :
    likeMatch (p0 :: ps) (c :: t) =
      if p0 = '%' then likeMatch ps (c :: t) || likeMatch (p0 :: ps) t
      else if p0 = '_' then likeMatch ps t
      else likeCharEq p0 c && likeMatch ps t := rfl

theorem likeMatch_pct_any : ∀ s : List Char, likeMatch ['%'] s = true
  | [] => rfl
  | c :: t => by
    rw [likeMatch_cons, if_pos rfl, likeMatch_nil_p, likeMatch_pct_any t]
    rfl

theorem likeMatch_pct_iff (ps : List Char) :
    ∀ s : List Char,
      (likeMatch ('%' :: ps) s = true ↔ ∃ a t, a ++ t = s ∧ likeMatch ps t = true)
  | [] => by
    constructor
    · intro h
      refine ⟨[], [], rfl, ?_⟩
      rw [likeMatch_nil_s] at h ⊢
      simpa [allPercent] using h
    · rintro ⟨a, t, hat, ht⟩
      rcases List.append_eq_nil.mp hat with ⟨rfl, rfl⟩
      rw [likeMatch_nil_s] at ht ⊢
      simp [allPercent, ht]
  | c :: t => by
    rw [likeMatch_cons, if_pos rfl, Bool.or_eq_true, likeMatch_pct_iff ps t]
    constructor
    · rintro (h | ⟨a, u, hau, hu⟩)
      · exact ⟨[], c :: t, rfl, h⟩
      · exact ⟨c :: a, u, by rw [List.cons_append, hau], hu⟩
    · rintro ⟨a, u, hau, hu⟩
      cases a with
      | nil =>
        simp only [List.nil_append] at hau
        subst hau
        exact Or.inl hu
      | cons a0 a' =>
        simp only [List.cons_append, List.cons.injEq] at hau
        obtain ⟨rfl, hau⟩ := hau
        exact Or.inr ⟨a', u, hau, hu⟩

theorem likeMatch_lit_iff :
    ∀ (f : List Char), (∀ c ∈ f, c ≠ '%' ∧ c ≠ '_') → ∀ (ps s : List Char),
      (likeMatch (f ++ ps) s = true ↔
        ∃ u v, u ++ v = s ∧ matchEq f u = true ∧ likeMatch ps v = true)
  | [], _, ps, s => by
    constructor
    · intro h
      exact ⟨[], s, rfl, rfl, h⟩
    · rintro ⟨u, v, huv, hu, hv⟩
      cases u with
      | nil =>
        simp only [List.nil_append] at huv
        subst huv
        exact hv
      | cons u0 u' => simp [matchEq] at hu
  | f0 :: f', hf, ps, s => by
    have hf0 := hf f0 (List.mem_cons_self f0 f')
    have hf' : ∀ c ∈ f', c ≠ '%' ∧ c ≠ '_' :=
      fun c hc => hf c (List.mem_cons_of_mem _ hc)
    cases s with
    | nil =>
      rw [List.cons_append, likeMatch_nil_s]
      constructor
      · intro h
        exfalso
        simp [allPercent, hf0.1] at h
      · rintro ⟨u, v, huv, hu, hv⟩
        rcases List.append_eq_nil.mp huv with ⟨rfl, rfl⟩
        simp [matchEq] at hu
    | cons c t =>
      rw [List.cons_append, likeMatch_cons, if_neg hf0.1, if_neg hf0.2,
        Bool.and_eq_true, likeMatch_lit_iff f' hf' ps t]
      constructor
      · rintro ⟨hcc, u, v, huv, hu, hv⟩
        exact ⟨c :: u, v, by rw [List.cons_append, huv],
          by simp [matchEq, hcc, hu], hv⟩
      · rintro ⟨u, v, huv, hu, hv⟩
        cases u with
        | nil => simp [matchEq] at hu
        | cons u0 u' =>
          simp only [List.cons_append, List.cons.injEq] at huv
          obtain ⟨rfl, huv⟩ := huv
          simp only [matchEq, Bool.and_eq_true] at hu
          exact ⟨hu.1, u', v, huv, hu.2, hv⟩

theorem matchEq_iff :
    ∀ f u : List Char, (matchEq f u = true ↔ f.map lowerChar = u.map lowerChar)
  | [], [] => by simp [matchEq]
  | [], _ :: _ => by simp [matchEq]
  | _ :: _, [] => by simp [matchEq]
  | p0 :: ps, c0 :: t => by
    simp only [matchEq, Bool.and_eq_true, List.map_cons, List.cons.injEq,
      likeCharEq, beq_iff_eq]
    rw [matchEq_iff ps t]

theorem isPreB_iff : ∀ p s : List Char, (isPreB p s = true ↔ ∃ b, p ++ b = s)
  | [], s => by simp [isPreB]
  | a :: l, [] => by simp [isPreB]
  | a :: l, b :: m => by
    simp only [isPreB, Bool.and_eq_true, beq_iff_eq]
    rw [isPreB_iff l m]
    constructor
    · rintro ⟨rfl, b', rfl⟩
      exact ⟨b', rfl⟩
    · rintro ⟨b', hb⟩
      simp only [List.cons_append, List.cons.injEq] at hb
      obtain ⟨rfl, hb⟩ := hb
      exact ⟨rfl, b', hb⟩

theorem isSegB_iff : ∀ (p s : List Char), (isSegB p s = true ↔ Seg p s)
  | p, [] => by
    simp only [isSegB, isPreB_iff]
    constructor
    · rintro ⟨b, hb⟩
      exact ⟨[], b, by simpa using hb⟩
    · rintro ⟨a, b, h⟩
      rcases List.append_eq_nil.mp h with ⟨rfl, h2⟩
      exact ⟨b, by simpa using h2⟩
  | p, c :: t => by
    simp only [isSegB, Bool.or_eq_true, isPreB_iff]
    rw [isSegB_iff p t]
    constructor
    · rintro (⟨b, hb⟩ | ⟨a, b, hab⟩)
      · exact ⟨[], b, by simpa using hb⟩
      · exact ⟨c :: a, b, by rw [List.cons_append, hab]⟩
    · rintro ⟨a, b, hab⟩
      cases a with
      | nil => exact Or.inl ⟨b, by simpa using hab⟩
      | cons a0 a' =>
        simp only [List.cons_append, List.cons.injEq] at hab
        exact Or.inr ⟨a', b, hab.2⟩

theorem likeMatch_seg_iff (f s : List Char)
    (hf : ∀ c ∈ f, c ≠ '%' ∧ c ≠ '_')
    (hsf : s.map lowerChar = s) (hff : f.map lowerChar = f) :
    (likeMatch ('%' :: (f ++ ['%'])) s = true ↔ Seg f s) := by
  rw [likeMatch_pct_iff (f ++ ['%']) s]
  simp only [likeMatch_lit_iff f hf, likeMatch_pct_any, and_true]
  constructor
  · rintro ⟨a, t, hat, u, v, huv, hu⟩
    have hfu : f.map lowerChar = u.map lowerChar := (matchEq_iff f u).mp hu
    have hufix : u.map lowerChar = u := by
      refine map_fix lowerChar u (fun c hc => ?_)
      refine fix_of_map_eq hsf c ?_
      rw [← hat, ← huv]
      exact List.mem_append_right a (List.mem_append_left v hc)
    have hfeq : f = u := by rw [← hff, hfu, hufix]
    exact ⟨a, v, by rw [hfeq, huv, hat]⟩
  · rintro ⟨a, b, rfl⟩
    exact ⟨a, f ++ b, rfl, f, b, rfl, (matchEq_iff f f).mpr rfl⟩

theorem noWild_lower {f : String} (hf : ∀ c ∈ f.data, c ≠ '%' ∧ c ≠ '_') :
    ∀ c ∈ (lowerStr f).data, c ≠ '%' ∧ c ≠ '_' := by
  intro c hc
  rw [lowerStr_data] at hc
  obtain ⟨c0, hc0, rfl⟩ := List.mem_map.mp hc
  exact ⟨fun h => (hf c0 hc0).1 (lowerChar_pct.mp h),
    fun h => (hf c0 hc0).2 (lowerChar_us.mp h)⟩

theorem condLike_iff {f fld : String} (hf : ∀ c ∈ f.data, c ≠ '%' ∧ c ≠ '_') :
    (condLike (some f) (lowerStr fld) = true ↔ ciSubstr f fld) := by
  show likeMatch (likePattern f) (lowerStr fld).data = true ↔ _
  unfold likePattern ciSubstr
  exact likeMatch_seg_iff _ _ (noWild_lower hf) (lowerStr_fix fld) (lowerStr_fix f)

/-! ### Unfolding equations for the handlers -/

theorem add_rows (p : NewSong) (db : Db) :
    (add_new_song false p db).2.rows = db.rows ++ [insRow p db] := rfl

theorem add_seq (p : NewSong) (db : Db) :
    (add_new_song false p db).2.seq = db.seq + 1 := rfl

theorem add_fst (p : NewSong) (db : Db) :
    (add_new_song false p db).1 =
      .resp { id := asI32 (db.seq + 1), title := p.title, artist := p.artist,
              genre := p.genre, play_count := 0 } := rfl

theorem play_snd (id : Nat) (db : Db) :
    (play_song false false id db).2 =
      { rows := db.rows.map (bumpRow (asI32 (id : Int))), seq := db.seq } := rfl

theorem asI32_self {n : Int} (h0 : 0 ≤ n) (h1 : n < 2147483648) :
    asI32 n = n := by
  unfold asI32
  have h2 : n % 4294967296 = n := Int.emod_eq_of_lt h0 (by omega)
  rw [h2, if_pos (by omega)]

theorem bump_id (b : Int) (r : Row) : (bumpRow b r).id = r.id := by
  unfold bumpRow
  split <;> rfl

theorem bump_rowWF (b : Int) (r : Row) (h : RowWF r) : RowWF (bumpRow b r) := by
  unfold bumpRow
  split
  · exact h
  · exact h

theorem play_fst (id : Nat) (db : Db) :
    (play_song false false id db).1 =
      (if (db.rows.filter (fun r => r.id = asI32 (id : Int))).length = 0
       then Outcome.resp (PlayOut.errorPayload "Song not found")
       else
         match (db.rows.map (bumpRow (asI32 (id : Int)))).find?
             (fun r => r.id = asI32 (id : Int)) with
         | none => Outcome.panicked
         | some r =>
           Outcome.resp (PlayOut.song
             { id := r.id
               title := r.title
               genre := r.artist
               artist := r.genre
               play_count := r.play_count })) := rfl

theorem play_fst_miss (id : Nat) (db : Db)
    (h : ∀ r ∈ db.rows, r.id ≠ asI32 (id : Int)) :
    (play_song false false id db).1 = .resp (.errorPayload "Song not found") := by
  have hz : (db.rows.filter (fun r => r.id = asI32 (id : Int))).length = 0 := by
    rw [List.length_eq_zero, List.filter_eq_nil_iff]
    intro a ha
    simpa using h a ha
  rw [play_fst, if_pos hz]

/-! ### Invariant preservation -/

theorem row_eq_of_id_eq {l : List Row} (hnd : (l.map Row.id).Nodup)
    {r r' : Row} (hr : r ∈ l) (hr' : r' ∈ l) (h : r'.id = r.id) : r' = r :=
  List.inj_on_of_nodup_map hnd hr' hr h

theorem dbWF_create {db : Db} (h : DbWF db) (p : NewSong) :
    DbWF (add_new_song false p db).2 := by
  obtain ⟨hlc, hbd, hnd, hsq⟩ := h
  refine ⟨?_, ?_, ?_, ?_⟩
  · intro r hr
    rw [add_rows] at hr
    rcases List.mem_append.mp hr with hr | hr
    · exact hlc r hr
    · rw [List.mem_singleton] at hr
      subst hr
      exact ⟨rfl, rfl, rfl⟩
  · intro r hr
    rw [add_rows] at hr
    rw [add_seq]
    rcases List.mem_append.mp hr with hr | hr
    · have := hbd r hr
      omega
    · rw [List.mem_singleton] at hr
      subst hr
      show 1 ≤ db.seq + 1 ∧ db.seq + 1 ≤ db.seq + 1
      omega
  · rw [add_rows, List.map_append, List.nodup_append]
    refine ⟨hnd, List.nodup_singleton _, ?_⟩
    intro x hx hx'
    obtain ⟨r, hr, rfl⟩ := List.mem_map.mp hx
    have hb := hbd r hr
    simp only [List.map_cons, List.map_nil, List.mem_singleton] at hx'
    have hins : (insRow p db).id = db.seq + 1 := rfl
    omega
  · rw [add_seq]
    omega

theorem dbWF_play {db : Db} (h : DbWF db) (id : Nat) :
    DbWF (play_song false false id db).2 := by
  obtain ⟨hlc, hbd, hnd, hsq⟩ := h
  rw [play_snd]
  refine ⟨?_, ?_, ?_, hsq⟩
  · intro r hr
    obtain ⟨r0, hr0, rfl⟩ := List.mem_map.mp hr
    exact bump_rowWF _ r0 (hlc r0 hr0)
  · intro r hr
    obtain ⟨r0, hr0, rfl⟩ := List.mem_map.mp hr
    rw [bump_id]
    exact hbd r0 hr0
  · rw [List.map_map]
    have heq : db.rows.map (Row.id ∘ bumpRow (asI32 (id : Int))) =
        db.rows.map Row.id :=
      List.map_congr_left (fun r _ => bump_id _ r)
    rw [heq]
    exact hnd

theorem dbWF_applyOp {db : Db} (h : DbWF db) (op : Op) :
    DbWF (applyOp db op) := by
  cases op with
  | create p => exact dbWF_create h p
  | play id => exact dbWF_play h id
  | search q => exact h

theorem dbWF_runOps {db : Db} (h : DbWF db) :
    ∀ ops : List Op, DbWF (runOps db ops) := by
  intro ops
  induction ops generalizing db with
  | nil => exact h
  | cons op ops ih => exact ih (dbWF_applyOp h op)

theorem db0_wf : DbWF db0 := by
  refine ⟨?_, ?_, ?_, ?_⟩ <;> simp [db0, DbWF]

/-! ### Id assignment along create sequences -/

theorem createRun_cons (db : Db) (p : NewSong) (ps : List NewSong) :
    createRun db (p :: ps) =
      { id := asI32 (db.seq + 1)
        title := p.title
        artist := p.artist
        genre := p.genre
        play_count := 0 } :: createRun (add_new_song false p db).2 ps := rfl

theorem createRun_id_bounds :
    ∀ (ps : List NewSong) (db : Db), 0 ≤ db.seq →
      db.seq + (ps.length : Int) < 2147483648 →
      ∀ s ∈ createRun db ps,
        db.seq + 1 ≤ s.id ∧ s.id ≤ db.seq + (ps.length : Int)
  | [], db, _, _ => by
    intro s hs
    simp [createRun] at hs
  | p :: ps, db, h0, h1 => by
    have hlen : (((p :: ps).length : Nat) : Int) = (ps.length : Int) + 1 := by
      simp
    rw [hlen] at h1 ⊢
    intro s hs
    rw [createRun_cons] at hs
    rcases List.mem_cons.mp hs with rfl | hs
    · have ha : asI32 (db.seq + 1) = db.seq + 1 :=
        asI32_self (by omega) (by omega)
      show db.seq + 1 ≤ asI32 (db.seq + 1) ∧
        asI32 (db.seq + 1) ≤ db.seq + ((ps.length : Int) + 1)
      rw [ha]
      omega
    · have h0' : 0 ≤ (add_new_song false p db).2.seq := by
        rw [add_seq]
        omega
      have h1' : (add_new_song false p db).2.seq + (ps.length : Int) <
          2147483648 := by
        rw [add_seq]
        omega
      have hb := createRun_id_bounds ps (add_new_song false p db).2 h0' h1' s hs
      rw [add_seq] at hb
      omega

theorem createRun_increasing :
    ∀ (ps : List NewSong) (db : Db), 0 ≤ db.seq →
      db.seq + (ps.length : Int) < 2147483648 →
      ((createRun db ps).map Song.id).Pairwise (· < ·)
  | [], _, _, _ => by simp [createRun]
  | p :: ps, db, h0, h1 => by
    have hlen : (((p :: ps).length : Nat) : Int) = (ps.length : Int) + 1 := by
      simp
    rw [hlen] at h1
    rw [createRun_cons, List.map_cons]
    have h0' : 0 ≤ (add_new_song false p db).2.seq := by
      rw [add_seq]
      omega
    have h1' : (add_new_song false p db).2.seq + (ps.length : Int) <
        2147483648 := by
      rw [add_seq]
      omega
    refine List.Pairwise.cons ?_ (createRun_increasing ps _ h0' h1')
    intro x hx
    obtain ⟨s, hs, rfl⟩ := List.mem_map.mp hx
    have hb := createRun_id_bounds ps (add_new_song false p db).2 h0' h1' s hs
    rw [add_seq] at hb
    have ha : asI32 (db.seq + 1) = db.seq + 1 := asI32_self (by omega) (by omega)
    show asI32 (db.seq + 1) < s.id
    rw [ha]
    omega

/-! ### Play counts along traces -/

theorem bump_match (b : Int) (r : Row) (h : r.id = b) :
    bumpRow b r = { r with play_count := r.play_count + 1 } := by
  unfold bumpRow
  rw [if_pos h]

theorem bump_iter_match (b : Int) :
    ∀ (n : Nat) (r : Row), r.id = b →
      (bumpRow b)^[n] r = { r with play_count := r.play_count + (n : Int) }
  | 0, r, _ => by simp
  | n + 1, r, h => by
    rw [Function.iterate_succ_apply, bump_match b r h,
      bump_iter_match b n { r with play_count := r.play_count + 1 } h]
    congr 1
    push_cast
    ring

theorem bump_iter_id (b : Int) :
    ∀ (n : Nat) (r : Row), ((bumpRow b)^[n] r).id = r.id
  | 0, r => by simp
  | n + 1, r => by
    rw [Function.iterate_succ_apply]
    rw [bump_iter_id b n (bumpRow b r)]
    exact bump_id b r

theorem runOps_play_rows (id : Nat) :
    ∀ (n : Nat) (db : Db),
      (runOps db (List.replicate n (Op.play id))).rows =
        db.rows.map ((bumpRow (asI32 (id : Int)))^[n])
  | 0, db => by simp [runOps]
  | n + 1, db => by
    rw [List.replicate_succ]
    show (runOps (applyOp db (Op.play id)) (List.replicate n (Op.play id))).rows = _
    rw [runOps_play_rows id n]
    rw [show (applyOp db (Op.play id)).rows =
      db.rows.map (bumpRow (asI32 (id : Int))) from rfl]
    rw [List.map_map, ← Function.iterate_succ]

theorem play_count_mono_step {db : Db} (h : DbWF db) (op : Op) {r r' : Row}
    (hr : r ∈ db.rows) (hr' : r' ∈ (applyOp db op).rows) (hid : r'.id = r.id) :
    r.play_count ≤ r'.play_count := by
  obtain ⟨hlc, hbd, hnd, hsq⟩ := h
  cases op with
  | create p =>
    rw [show (applyOp db (Op.create p)).rows = (add_new_song false p db).2.rows
      from rfl, add_rows] at hr'
    rcases List.mem_append.mp hr' with hr' | hr'
    · rw [row_eq_of_id_eq hnd hr hr' hid]
    · rw [List.mem_singleton] at hr'
      exfalso
      have hb := hbd r hr
      have hid' : r'.id = db.seq + 1 := by
        rw [hr']
        rfl
      omega
  | play pid =>
    rw [show (applyOp db (Op.play pid)).rows =
      db.rows.map (bumpRow (asI32 (pid : Int))) from rfl] at hr'
    obtain ⟨r0, hr0, rfl⟩ := List.mem_map.mp hr'
    have hid0 : r0.id = r.id := by
      rw [← bump_id (asI32 (pid : Int)) r0]
      exact hid
    have hr0r : r0 = r := row_eq_of_id_eq hnd hr hr0 hid0
    subst hr0r
    unfold bumpRow
    split
    · show r0.play_count ≤ r0.play_count + 1
      omega
    · exact le_refl _
  | search q =>
    have heq : r' = r := row_eq_of_id_eq hnd hr hr' hid
    rw [heq]

/-! ### The search conditions, field by field -/

theorem cond_field_iff {filter : Option String} {low fld : String}
    (hlow : low = lowerStr fld)
    (hn : ∀ f, filter = some f → ∀ c ∈ f.data, c ≠ '%' ∧ c ≠ '_') :
    (condLike filter low = true ↔ ∀ f, filter = some f → ciSubstr f fld) := by
  cases filter with
  | none => simp [condLike]
  | some f =>
    subst hlow
    rw [condLike_iff (hn f rfl)]
    constructor
    · intro h g hg
      obtain rfl := Option.some.inj hg
      exact h
    · intro h
      exact h f rfl

/-! ### The claims -/

/-- C1: the claim says play on a present id increments play_count by one
and returns the updated Record whose id, title, artist and genre equal
the stored record's fields.  Evaluated on the store holding the single
record (id 1, title t, artist a, genre g, play_count 0), play on id 1
increments the count correctly but returns the record with artist and
genre swapped (artist g, genre a): the handler destructures the SELECT
tuple (id, title, artist, genre, play_count) in the wrong order. -/
theorem play_song_swaps_artist_and_genre :
    exDb.rows.map rowToSong =
      [{ id := 1, title := "t", artist := "a", genre := "g", play_count := 0 }] ∧
    (play_song false false 1 exDb).1 =
      .resp (.song { id := 1, title := "t", artist := "g", genre := "a", play_count := 1 }) := by
  decide

/-- C2 counterexample: the filter `_` is not a substring of the stored
title `abc`, yet search with that title filter returns the record — the
SQL LIKE metacharacter `_` matches any single character. -/
theorem search_song_wildcard_cex :
    search_song false { title := some "_", artist := none, genre := none } exDb2 =
      [{ id := 1, title := "abc", artist := "x", genre := "y", play_count := 0 }] ∧
    ¬ ciSubstr "_" "abc" := by
  constructor
  · decide
  · show ¬ Seg (lowerStr "_").data (lowerStr "abc").data
    rw [← isSegB_iff]
    decide

/-- C2 (amended): when no supplied filter contains a SQL LIKE
metacharacter (`%` or `_`), search returns exactly the records of which
every supplied filter is a case-insensitive substring of the
corresponding field; omitted filters are always-true; and a call with no
filters returns every record.  With a metacharacter in a filter the LIKE
wildcards stay active and the original substring claim fails (see the
counterexample).  Stated for stores whose lowercase shadow columns are
consistent, which holds in every reachable store. -/
theorem search_song_ci_substring (params : QueryParams) (db : Db)
    (hwf : ∀ r ∈ db.rows, RowWF r)
    (ht : ∀ f, params.title = some f → ∀ c ∈ f.data, c ≠ '%' ∧ c ≠ '_')
    (ha : ∀ f, params.artist = some f → ∀ c ∈ f.data, c ≠ '%' ∧ c ≠ '_')
    (hg : ∀ f, params.genre = some f → ∀ c ∈ f.data, c ≠ '%' ∧ c ≠ '_') :
    (∀ s : Song, s ∈ search_song false params db ↔
      ∃ r ∈ db.rows, s = rowToSong r ∧
        (∀ f, params.title = some f → ciSubstr f r.title) ∧
        (∀ f, params.artist = some f → ciSubstr f r.artist) ∧
        (∀ f, params.genre = some f → ciSubstr f r.genre)) ∧
    search_song false { title := none, artist := none, genre := none } db =
      db.rows.map rowToSong := by
  constructor
  · intro s
    rw [show search_song false params db = (db.rows.filter (fun r =>
        condLike params.title r.title_lowercase &&
        condLike params.artist r.artist_lowercase &&
        condLike params.genre r.genre_lowercase)).map rowToSong from rfl]
    simp only [List.mem_map, List.mem_filter, Bool.and_eq_true]
    constructor
    · rintro ⟨r, ⟨hr, ⟨hc1, hc2⟩, hc3⟩, rfl⟩
      obtain ⟨w1, w2, w3⟩ := hwf r hr
      exact ⟨r, hr, rfl, (cond_field_iff w1 ht).mp hc1,
        (cond_field_iff w2 ha).mp hc2, (cond_field_iff w3 hg).mp hc3⟩
    · rintro ⟨r, hr, rfl, p1, p2, p3⟩
      obtain ⟨w1, w2, w3⟩ := hwf r hr
      exact ⟨r, ⟨hr, ⟨(cond_field_iff w1 ht).mpr p1,
        (cond_field_iff w2 ha).mpr p2⟩, (cond_field_iff w3 hg).mpr p3⟩, rfl⟩
  · rw [show search_song false { title := none, artist := none, genre := none } db =
      (db.rows.filter (fun r => condLike none r.title_lowercase &&
        condLike none r.artist_lowercase &&
        condLike none r.genre_lowercase)).map rowToSong from rfl]
    simp [condLike, List.filter_true]

/-- Witness for the amended C2 at a concrete store and the no-filter
query. -/
theorem search_song_ci_substring_witness :
    (∀ r ∈ exDb2.rows, RowWF r) ∧
    ((∀ s : Song,
        s ∈ search_song false { title := none, artist := none, genre := none } exDb2 ↔
        ∃ r ∈ exDb2.rows, s = rowToSong r ∧
          (∀ f, (none : Option String) = some f → ciSubstr f r.title) ∧
          (∀ f, (none : Option String) = some f → ciSubstr f r.artist) ∧
          (∀ f, (none : Option String) = some f → ciSubstr f r.genre)) ∧
      search_song false { title := none, artist := none, genre := none } exDb2 =
        exDb2.rows.map rowToSong) :=
  ⟨by decide,
   search_song_ci_substring { title := none, artist := none, genre := none } exDb2
     (by decide)
     (fun _ hf => Option.noConfusion hf)
     (fun _ hf => Option.noConfusion hf)
     (fun _ hf => Option.noConfusion hf)⟩

/-- C3: create stores a new Record with a freshly assigned id and
play_count 0, and returns that stored Record (same id, the given
title, artist and genre, play_count 0).  Stated for any store whose
AUTOINCREMENT sequence is non-negative, dominates the stored ids and has
not exhausted the i32 range of the echoed `last_insert_rowid() as i32`;
all three hold in every reachable store. -/
theorem add_new_song_fresh (p : NewSong) (db : Db)
    (hbd : ∀ r ∈ db.rows, r.id ≤ db.seq)
    (h0 : 0 ≤ db.seq) (h1 : db.seq + 1 < 2147483648) :
    (add_new_song false p db).2.rows = db.rows ++ [insRow p db] ∧
    (add_new_song false p db).1 = .resp (rowToSong (insRow p db)) ∧
    rowToSong (insRow p db) =
      { id := db.seq + 1, title := p.title, artist := p.artist, genre := p.genre, play_count := 0 } ∧
    (∀ r ∈ db.rows, r.id ≠ (insRow p db).id) := by
  refine ⟨add_rows p db, ?_, rfl, ?_⟩
  · rw [add_fst]
    have ha : asI32 (db.seq + 1) = db.seq + 1 := asI32_self (by omega) h1
    show Outcome.resp
        { id := asI32 (db.seq + 1)
          title := p.title
          artist := p.artist
          genre := p.genre
          play_count := 0 } =
      Outcome.resp (rowToSong (insRow p db))
    rw [ha]
    rfl
  · intro r hr
    have := hbd r hr
    show r.id ≠ db.seq + 1
    omega

/-- Witness for C3 at the empty store and a concrete payload. -/
theorem add_new_song_fresh_witness :
    (∀ r ∈ db0.rows, r.id ≤ db0.seq) ∧ 0 ≤ db0.seq ∧ db0.seq + 1 < 2147483648 ∧
    ((add_new_song false exPayload db0).2.rows = db0.rows ++ [insRow exPayload db0] ∧
     (add_new_song false exPayload db0).1 = .resp (rowToSong (insRow exPayload db0)) ∧
     rowToSong (insRow exPayload db0) =
       { id := db0.seq + 1, title := exPayload.title, artist := exPayload.artist,
         genre := exPayload.genre, play_count := 0 } ∧
     (∀ r ∈ db0.rows, r.id ≠ (insRow exPayload db0).id)) :=
  ⟨by decide, by decide, by decide,
   add_new_song_fresh exPayload db0 (by decide) (by decide) (by decide)⟩

/-- C4 counterexample: the path id 4294967297 = 2^32 + 1 is not the id of
any stored record, yet play neither answers the NotFound payload nor
leaves the store unchanged: `id as i32` truncates the path id to 1,
which hits the stored record. -/
theorem play_song_wrap_cex :
    (∀ r ∈ exDb.rows, r.id ≠ (4294967297 : Int)) ∧
    (play_song false false 4294967297 exDb).1 ≠
      .resp (.errorPayload "Song not found") ∧
    (play_song false false 4294967297 exDb).2 ≠ exDb := by
  refine ⟨by decide, by decide, by decide⟩

/-- C4 (amended): play answers the structured payload `error: Song not
found` and leaves every stored record unchanged exactly for path ids
whose `as i32` truncation matches no stored id; path ids below 2^31 are
unchanged by the truncation, so the original claim holds for them, while
larger path ids can wrap onto a stored id (see the counterexample). -/
theorem play_song_not_found (id : Nat) (db : Db)
    (h : ∀ r ∈ db.rows, r.id ≠ asI32 (id : Int)) :
    (play_song false false id db).1 = .resp (.errorPayload "Song not found") ∧
    (play_song false false id db).2 = db ∧
    (∀ i : Nat, i < 2147483648 → asI32 (i : Int) = i) := by
  refine ⟨play_fst_miss id db h, ?_, ?_⟩
  · rw [play_snd]
    have hmap : db.rows.map (bumpRow (asI32 (id : Int))) = db.rows :=
      map_fix _ db.rows (fun r hr => by
        unfold bumpRow
        rw [if_neg (h r hr)])
    rw [hmap]
  · intro i hi
    exact asI32_self (by omega) (by omega)

/-- Witness for the amended C4: playing the absent id 999 on a one-record
store. -/
theorem play_song_not_found_witness :
    (∀ r ∈ exDb.rows, r.id ≠ asI32 ((999 : Nat) : Int)) ∧
    ((play_song false false 999 exDb).1 = .resp (.errorPayload "Song not found") ∧
     (play_song false false 999 exDb).2 = exDb ∧
     (∀ i : Nat, i < 2147483648 → asI32 (i : Int) = i)) :=
  ⟨by decide, play_song_not_found 999 exDb (by decide)⟩

/-- C5: along every sequence of create operations the assigned ids are
strictly increasing in assignment order, hence pairwise distinct.
Concurrent inserts are serialized by the database (each INSERT with its
AUTOINCREMENT assignment is atomic), so a trace of creates is a
sequence; the i32 bound keeps the echoed ids inside the range of the
`as i32` cast. -/
theorem create_ids_increasing (db : Db) (ps : List NewSong)
    (h0 : 0 ≤ db.seq) (h1 : db.seq + (ps.length : Int) < 2147483648) :
    ((createRun db ps).map Song.id).Pairwise (· < ·) ∧
    ((createRun db ps).map Song.id).Nodup := by
  have hp := createRun_increasing ps db h0 h1
  exact ⟨hp, hp.imp (fun hlt => ne_of_lt hlt)⟩

/-- Witness for C5: two creates from the empty store. -/
theorem create_ids_increasing_witness :
    0 ≤ db0.seq ∧
    db0.seq + (([exPayload, exPayload2].length : Nat) : Int) < 2147483648 ∧
    (((createRun db0 [exPayload, exPayload2]).map Song.id).Pairwise (· < ·) ∧
     ((createRun db0 [exPayload, exPayload2]).map Song.id).Nodup) :=
  ⟨by decide, by decide,
   create_ids_increasing db0 [exPayload, exPayload2] (by decide) (by decide)⟩

/-- C6: on a well-formed store no operation decreases the play_count of
any record that stays present (so counts never decrease along traces),
and n play operations on the same path id raise the play_count of the
row they address by exactly n — increments are never lost, since each
UPDATE is executed atomically by the database. -/
theorem play_count_mono (db : Db) (h : DbWF db) :
    (∀ (op : Op) (r r' : Row), r ∈ db.rows → r' ∈ (applyOp db op).rows →
      r'.id = r.id → r.play_count ≤ r'.play_count) ∧
    (∀ (id : Nat) (n : Nat) (r : Row), r ∈ db.rows → r.id = asI32 (id : Int) →
      ∃ r' ∈ (runOps db (List.replicate n (Op.play id))).rows,
        r'.id = r.id ∧ r'.play_count = r.play_count + (n : Int)) := by
  constructor
  · intro op r r' hr hr' hid
    exact play_count_mono_step h op hr hr' hid
  · intro id n r hr hid
    rw [runOps_play_rows]
    refine ⟨(bumpRow (asI32 (id : Int)))^[n] r, List.mem_map_of_mem _ hr, ?_, ?_⟩
    · rw [bump_iter_id]
    · rw [bump_iter_match _ n r hid]

/-- Witness for C6 at a concrete one-record store. -/
theorem play_count_mono_witness :
    DbWF exDb ∧
    ((∀ (op : Op) (r r' : Row), r ∈ exDb.rows → r' ∈ (applyOp exDb op).rows →
        r'.id = r.id → r.play_count ≤ r'.play_count) ∧
     (∀ (id : Nat) (n : Nat) (r : Row), r ∈ exDb.rows → r.id = asI32 (id : Int) →
        ∃ r' ∈ (runOps exDb (List.replicate n (Op.play id))).rows,
          r'.id = r.id ∧ r'.play_count = r.play_count + (n : Int))) :=
  ⟨by decide, play_count_mono exDb (by decide)⟩

/-- C7 counterexample: a database write failure during create is not
recoverable from the caller's perspective — the handler unwraps the
error and panics instead of producing any response. -/
theorem add_new_song_failure_cex :
    add_new_song true exPayload db0 = (Outcome.panicked, db0) := by
  decide

/-- C7 (amended): only search recovers from a database failure (it
answers the empty list, per its unwrap_or_else); create and play unwrap
a database failure into a panic, so their failures are not recoverable
from the caller's perspective; NotFound remains the one modeled,
structured error outcome. -/
theorem failure_handling :
    (∀ (q : QueryParams) (db : Db), search_song true q db = []) ∧
    (∀ (p : NewSong) (db : Db), add_new_song true p db = (Outcome.panicked, db)) ∧
    (∀ (id : Nat) (db : Db), play_song true false id db = (Outcome.panicked, db)) := by
  exact ⟨fun _ _ => rfl, fun _ _ => rfl, fun _ _ => rfl⟩

/-- C8: in the modelled write-back-cache system, a step begins a flush
(moves a snapshot into the pending write) exactly when no flush is in
progress, the Dirty flag is true and the store size has reached the
threshold; in particular no flush ever begins while Dirty is false. -/
theorem flush_iff_dirty_and_threshold (threshold : Nat) (st : SysState) :
    ((∃ st', SysStep threshold st st' ∧ st.pending = none ∧
        st'.pending.isSome = true) ↔
      (st.pending = none ∧ st.dirty = true ∧
        threshold ≤ st.db.rows.length)) ∧
    (st.dirty = false →
      ¬ ∃ st', SysStep threshold st st' ∧ st.pending = none ∧
        st'.pending.isSome = true) := by
  have hiff : (∃ st', SysStep threshold st st' ∧ st.pending = none ∧
      st'.pending.isSome = true) ↔
      (st.pending = none ∧ st.dirty = true ∧ threshold ≤ st.db.rows.length) := by
    constructor
    · rintro ⟨st', hstep, hnone, hsome⟩
      cases hstep <;> simp_all
    · rintro ⟨hnone, hdirty, hsz⟩
      obtain ⟨db, d, pend, dur⟩ := st
      dsimp only at hnone hdirty hsz
      subst hnone
      subst hdirty
      exact ⟨⟨db, false, some db, dur⟩, SysStep.beginFlush db dur hsz, rfl, rfl⟩
  refine ⟨hiff, fun hd hex => ?_⟩
  have hdt := (hiff.mp hex).2.1
  rw [hd] at hdt
  exact Bool.noConfusion hdt

/-- Witness for C8: with the Dirty flag false no flush step is possible
from a concrete state. -/
theorem flush_iff_dirty_and_threshold_witness :
    (SysState.mk db0 false none none).dirty = false ∧
    ¬ ∃ st', SysStep 0 (SysState.mk db0 false none none) st' ∧
      (SysState.mk db0 false none none).pending = none ∧
      st'.pending.isSome = true :=
  ⟨rfl, (flush_iff_dirty_and_threshold 0 (SysState.mk db0 false none none)).2 rfl⟩

/-- C9: loading a persisted snapshot reconstructs the Catalog exactly,
including the empty Catalog, and loading with no durable state gives the
empty default Catalog with next_id 1. -/
theorem load_persist_roundtrip :
    (∀ c : Catalog, loadSnap (some (persistSnap c)) = c) ∧
    loadSnap none = { records := [], next_id := 1 } := by
  refine ⟨fun c => ?_, rfl⟩
  obtain ⟨records, next_id⟩ := c
  simp only [persistSnap, loadSnap, List.map_map]
  congr 1
  exact map_fix _ records (fun s _ => rfl)

/-- C10: in every store reachable from the initial empty store by client
operations, every row's lowercase shadow columns hold exactly the
lowercasing of its visible columns: create establishes the invariant and
play and search preserve it, which is what makes search's
case-insensitive matching on the shadow columns meaningful. -/
theorem lowercase_shadow_invariant (ops : List Op) :
    ∀ r ∈ (runOps db0 ops).rows,
      r.title_lowercase = lowerStr r.title ∧
      r.artist_lowercase = lowerStr r.artist ∧
      r.genre_lowercase = lowerStr r.genre := by
  intro r hr
  exact (dbWF_runOps db0_wf ops).1 r hr

/-- Witness for C10: the row created by one create operation. -/
theorem lowercase_shadow_invariant_witness :
    insRow exPayload db0 ∈ (runOps db0 [Op.create exPayload]).rows ∧
    ((insRow exPayload db0).title_lowercase = lowerStr (insRow exPayload db0).title ∧
     (insRow exPayload db0).artist_lowercase = lowerStr (insRow exPayload db0).artist ∧
     (insRow exPayload db0).genre_lowercase = lowerStr (insRow exPayload db0).genre) :=
  ⟨by decide,
   lowercase_shadow_invariant [Op.create exPayload] (insRow exPayload db0) (by decide)⟩
